import Mathlib

/-!
A shallow embedding of `src/friend_connector.py`: a SQLite-backed CLI that
tracks friends, logged contact events, and per-(friend, medium) contact
frequency goals, and reports who is overdue for contact.

Modelling conventions:
* The SQLite store (tables `friends`, `contacts`, `goals`) is the `DB`
  structure; rows are structures mirroring the table columns.
* `medium` columns hold only values of the CLI's `Medium` enum, so they are
  modelled by the inductive `Medium` (the `ELSE 0` branch of the SQL `CASE`
  is unreachable for enum values).
* Dates (`YYYY-MM-DD` strings in the store) are modelled as their julian day
  numbers (`Int`), and `julianday('now','localtime')` as a rational `now`;
  only differences of these values are used by the code.  `MAX` on the
  lexicographically ordered date strings coincides with `max` on day
  numbers.  SQLite's `CAST (x AS INTEGER)` and Python's `int()` both
  truncate toward zero, modelled by `ratTrunc`.
* `REAL` arithmetic of SQLite is modelled exactly over `ℚ`.
* Statements that the Python layer would crash on (unhandled
  `sqlite3.IntegrityError`) are modelled by `Except DBError`; on an error the
  transaction of the `with` block is rolled back, so no state is produced.
* String comparison (SQLite `ORDER BY name`, BINARY collation) is modelled
  by lexicographic comparison of the characters, which agrees with byte
  order on ASCII names.
-/

namespace FriendConnector

/-- The `Medium` enum of the CLI (`class Medium(str, enum.Enum)`). -/
inductive Medium
  | meet
  | call
  | talk
  | text
deriving DecidableEq, Repr

/-- The `medium_hierarchy` SQL `CASE` expression in `list`:
`meet ↦ 4, call ↦ 3, talk ↦ 2, text ↦ 1` (the `ELSE 0` branch is
unreachable for `Medium` values). -/
def medium_hierarchy : Medium → Nat
  | .meet => 4
  | .call => 3
  | .talk => 2
  | .text => 1

/-- A row of the `friends` table: surrogate `id`, unique `name`. -/
structure Friend where
  id : Nat
  name : String
deriving DecidableEq, Repr

/-- A row of the `contacts` table (its own autoincrement `id` is never read
by the program and is omitted). -/
structure Contact where
  friend_id : Nat
  date : Int
  medium : Medium
deriving DecidableEq, Repr

/-- A row of the `goals` table; primary key `(friend_id, medium)`. -/
structure Goal where
  friend_id : Nat
  medium : Medium
  frequency : Int
deriving DecidableEq, Repr

/-- The whole store; `nextFriendId` models the `AUTOINCREMENT` counter of
`friends.id`. -/
structure DB where
  friends : List Friend
  contacts : List Contact
  goals : List Goal
  nextFriendId : Nat
deriving DecidableEq, Repr

/-- The store right after `init_db` on a fresh file. -/
def emptyDB : DB := ⟨[], [], [], 1⟩

/-- Storage-constraint failures that the Python code does not catch: they
surface as an unhandled `sqlite3.IntegrityError` (a fatal error), and the
`with db` block rolls the transaction back. -/
inductive DBError
  | uniqueViolation
  | notNullViolation
deriving DecidableEq, Repr

/-- The `add` command: `INSERT INTO friends (name) VALUES (?)`.  A
duplicate name violates `UNIQUE` on `friends.name`. -/
def add (db : DB) (name : String) : Except DBError DB :=
  if db.friends.any (fun f => f.name == name) then .error .uniqueViolation
  else .ok { db with
    friends := db.friends ++ [⟨db.nextFriendId, name⟩],
    nextFriendId := db.nextFriendId + 1 }

/-- The `goal` command: abort (with a printed message) when the friend is
unknown; `DELETE` the goal when `frequency == 0`; otherwise `INSERT ... ON
CONFLICT (friend_id, medium) DO UPDATE SET frequency`. -/
def goalCmd (db : DB) (name : String) (medium : Medium) (frequency : Int) : DB :=
  match db.friends.find? (fun f => f.name == name) with
  | none => db
  | some friend =>
    if frequency = 0 then
      { db with goals :=
          db.goals.filter (fun g => !(g.friend_id == friend.id && g.medium == medium)) }
    else if db.goals.any (fun g => g.friend_id == friend.id && g.medium == medium) then
      { db with goals :=
          db.goals.map (fun g =>
            if g.friend_id == friend.id && g.medium == medium then
              { g with frequency := frequency }
            else g) }
    else
      { db with goals := db.goals ++ [⟨friend.id, medium, frequency⟩] }

/-- The `rename` command: abort (with a printed message) when the friend is
unknown; otherwise `UPDATE friends SET name = ? WHERE name = ?`.  When a
different row already holds `new_name`, the `UNIQUE` constraint on
`friends.name` fires and the error is unhandled. -/
def rename (db : DB) (name new_name : String) : Except DBError DB :=
  match db.friends.find? (fun f => f.name == name) with
  | none => .ok db
  | some _ =>
    if new_name != name && db.friends.any (fun f => f.name == new_name) then
      .error .uniqueViolation
    else
      .ok { db with friends :=
        db.friends.map (fun f =>
          if f.name == name then { f with name := new_name } else f) }

/-- The `contact` command: `INSERT INTO contacts (friend_id, medium, date)
VALUES ((SELECT id FROM friends WHERE name = ?), ?, ?)`.  There is no
friend-existence check: an unknown name makes the subquery `NULL` and the
`NOT NULL` constraint on `contacts.friend_id` fires, unhandled. -/
def contact (db : DB) (name : String) (medium : Medium) (date : Int) :
    Except DBError DB :=
  match db.friends.find? (fun f => f.name == name) with
  | none => .error .notNullViolation
  | some friend =>
    .ok { db with contacts := db.contacts ++ [⟨friend.id, date, medium⟩] }

/-- Truncation toward zero: SQLite `CAST (x AS INTEGER)` and Python
`int(x)`. -/
def ratTrunc (q : ℚ) : ℤ := if 0 ≤ q then ⌊q⌋ else -⌊-q⌋

/-- The contacts that the `LEFT JOIN ... AND (medium_hierarchy(c.medium)) >=
(medium_hierarchy(g.medium))` condition matches for friend id `fid` and a
goal of medium `gm`. -/
def qualifyingContacts (db : DB) (fid : Nat) (gm : Medium) : List Contact :=
  db.contacts.filter (fun c =>
    c.friend_id == fid && decide (medium_hierarchy gm ≤ medium_hierarchy c.medium))

/-- One row of the `list` report (outer `SELECT`), with `most_overdue`
still to be filled in by the window function. -/
structure Row where
  id : Nat
  name : String
  medium : Medium
  frequency : Int
  last_valid_contact : Option Int
  days_since : Option Int
  percent_overdue : Option ℚ
  most_overdue : Option ℚ
deriving DecidableEq, Repr

/-- The row the inner `SELECT ... GROUP BY f.id, g.medium` produces for one
(friend, goal) join pair: `MAX(c.date)` over the qualifying contacts (NULL
when there is none), `days_since = CAST(julianday('now','localtime') -
julianday(MAX(c.date)) AS INTEGER)` and `percent_overdue = 100.0 *
days_since / g.frequency`. -/
def mkRow (db : DB) (now : ℚ) (f : Friend) (g : Goal) : Row :=
  let lvc : Option Int := ((qualifyingContacts db f.id g.medium).map (fun c => c.date)).max?
  let ds : Option Int := lvc.map (fun d : ℤ => ratTrunc (now - (d : ℚ)))
  { id := f.id
    name := f.name
    medium := g.medium
    frequency := g.frequency
    last_valid_contact := lvc
    days_since := ds
    percent_overdue := ds.map (fun k : ℤ => 100 * (k : ℚ) / (g.frequency : ℚ))
    most_overdue := none }

/-- All rows of the inner query: `FROM friends f JOIN goals g ON f.id =
g.friend_id`, one group per join pair. -/
def innerRows (db : DB) (now : ℚ) : List Row :=
  db.friends.flatMap (fun f =>
    (db.goals.filter (fun g => g.friend_id == f.id)).map (fun g => mkRow db now f g))

/-- SQL aggregate `MAX` combining step on nullable values: `NULL`s are
ignored. -/
def omax : Option ℚ → Option ℚ → Option ℚ
  | none, b => b
  | some x, none => some x
  | some x, some y => some (max x y)

/-- SQL aggregate `MAX` over a column of nullable values. -/
def aggMax (l : List (Option ℚ)) : Option ℚ := l.foldr omax none

/-- The window function `MAX(percent_overdue) OVER (PARTITION BY id)`,
applied to one row: every other column is left unchanged. -/
def windowUpdate (rs : List Row) (r : Row) : Row :=
  { r with most_overdue :=
      aggMax ((rs.filter (fun r2 => r2.id == r.id)).map (fun r2 => r2.percent_overdue)) }

/-- The window function `MAX(percent_overdue) OVER (PARTITION BY id)`. -/
def withMostOverdue (rs : List Row) : List Row :=
  rs.map (fun r =>
    { r with most_overdue :=
        aggMax ((rs.filter (fun r2 => r2.id == r.id)).map (fun r2 => r2.percent_overdue)) })

/-- SQLite comparison of nullable values, strictly: `NULL` is smaller than
every value. -/
def optLt : Option ℚ → Option ℚ → Prop
  | none, some _ => True
  | some x, some y => x < y
  | _, none => False

/-- SQLite comparison of nullable values, non-strictly. -/
def optLe : Option ℚ → Option ℚ → Prop
  | none, _ => True
  | some x, some y => x ≤ y
  | some _, none => False

instance : (a b : Option ℚ) → Decidable (optLt a b)
  | none, some _ => isTrue trivial
  | some x, some y => inferInstanceAs (Decidable (x < y))
  | none, none => isFalse (fun h => h)
  | some _, none => isFalse (fun h => h)

instance : (a b : Option ℚ) → Decidable (optLe a b)
  | none, _ => isTrue trivial
  | some x, some y => inferInstanceAs (Decidable (x ≤ y))
  | some _, none => isFalse (fun h => h)

/-- The `ORDER BY most_overdue DESC, name, percent_overdue DESC` ordering of
the `list` query (SQLite sorts `NULL` below every value, so in a
descending column `NULL` comes last; names are compared as strings). -/
def rowOrder (r1 r2 : Row) : Prop :=
  optLt r2.most_overdue r1.most_overdue ∨
    (r1.most_overdue = r2.most_overdue ∧
      (r1.name.data < r2.name.data ∨
        (r1.name = r2.name ∧ optLe r2.percent_overdue r1.percent_overdue)))

instance : DecidableRel rowOrder := fun r1 r2 => by
  unfold rowOrder
  infer_instance

/-- The result set of the `list` query, in `ORDER BY` order. -/
def listRows (db : DB) (now : ℚ) : List Row :=
  List.insertionSort rowOrder (withMostOverdue (innerRows db now))

/-- Python `days = int(row["days_since"]) if row["days_since"] is not None
else 0`. -/
def daysInt (r : Row) : ℤ :=
  match r.days_since with
  | some d => d
  | none => 0

/-- Python `percent = int(row["percent_overdue"]) if row["percent_overdue"]
is not None else 100`. -/
def percentInt (r : Row) : ℤ :=
  match r.percent_overdue with
  | some p => ratTrunc p
  | none => 100

/-- The severity banding of the display (`red`, `dark_orange`, `gold1`,
`green`). -/
def severityColor (p : ℤ) : String :=
  if 100 ≤ p then "red"
  else if 75 ≤ p then "dark_orange"
  else if 50 ≤ p then "gold1"
  else "green"

/-- The last-contact field printed for a row of the report. -/
def lastContactString (r : Row) : String :=
  match r.last_valid_contact with
  | none => "[red]No contacts logged[/red]"
  | some d =>
    toString d ++ " ([" ++ severityColor (percentInt r) ++ "]" ++
      toString (daysInt r) ++ " days ago: " ++ toString (percentInt r) ++
      "%[/" ++ severityColor (percentInt r) ++ "])"

/-- The medium order as the specification words it: the chain
`text < talk < call < meet`, from poorest to richest. -/
def specMediumOrder : List Medium := [.text, .talk, .call, .meet]

/-- `cm` is at least as rich as `gm` in the specification's hierarchy
order. -/
def specRichAtLeast (gm cm : Medium) : Prop :=
  specMediumOrder.indexOf gm ≤ specMediumOrder.indexOf cm

/-- The CLI commands that mutate the store. -/
inductive Cmd
  | add (name : String)
  | goal (name : String) (medium : Medium) (frequency : Int)
  | rename (name new_name : String)
  | contact (name : String) (medium : Medium) (date : Int)

/-- One CLI invocation: on an unhandled storage error the transaction is
rolled back and the store is unchanged. -/
def step (db : DB) : Cmd → DB
  | .add n =>
    match add db n with
    | .ok db' => db'
    | .error _ => db
  | .goal n m fr => goalCmd db n m fr
  | .rename n n2 =>
    match rename db n n2 with
    | .ok db' => db'
    | .error _ => db
  | .contact n m d =>
    match contact db n m d with
    | .ok db' => db'
    | .error _ => db

/-- Running a sequence of commands against a fresh store. -/
def run (cmds : List Cmd) : DB := cmds.foldl step emptyDB

/-- The structural invariants the SQLite schema enforces: primary key of
`friends`, `UNIQUE` on `friends.name`, primary key `(friend_id, medium)` of
`goals`, and the foreign key from `goals` to `friends`. -/
def WF (db : DB) : Prop :=
  (db.friends.map (fun f => f.id)).Nodup ∧
  (db.friends.map (fun f => f.name)).Nodup ∧
  (db.goals.map (fun g => (g.friend_id, g.medium))).Nodup ∧
  (∀ g ∈ db.goals, g.friend_id ∈ db.friends.map (fun f => f.id))

/-- A small concrete store used as a test fixture: Alice was met one day
before `now = 100` against a 2-day meet goal (50% of the interval elapsed),
Bob has a meet goal but no logged contacts, and Carl has a logged contact
but no goals. -/
def dbW : DB :=
  ⟨[⟨1, "Alice"⟩, ⟨2, "Bob"⟩, ⟨3, "Carl"⟩],
   [⟨1, 99, Medium.meet⟩, ⟨3, 98, Medium.text⟩],
   [⟨1, Medium.meet, 2⟩, ⟨2, Medium.meet, 7⟩],
   4⟩

instance : (db : DB) → Decidable (WF db) := fun db => by
  unfold WF
  infer_instance

/-! ### Order lemmas for the `ORDER BY` relation -/

theorem optLt_trichotomy (a b : Option ℚ) : optLt a b ∨ a = b ∨ optLt b a := by
  cases a with
  | none =>
    cases b with
    | none => exact Or.inr (Or.inl rfl)
    | some y => exact Or.inl trivial
  | some x =>
    cases b with
    | none => exact Or.inr (Or.inr trivial)
    | some y =>
      rcases lt_trichotomy x y with h | h | h
      · exact Or.inl h
      · exact Or.inr (Or.inl (by rw [h]))
      · exact Or.inr (Or.inr h)

theorem optLt_trans {a b c : Option ℚ} (h1 : optLt a b) (h2 : optLt b c) : optLt a c := by
  cases a <;> cases b <;> cases c <;> simp_all [optLt]
  exact lt_trans h1 h2

theorem optLe_trans {a b c : Option ℚ} (h1 : optLe a b) (h2 : optLe b c) : optLe a c := by
  cases a <;> cases b <;> cases c <;> simp_all [optLe]
  exact le_trans h1 h2

theorem optLe_total (a b : Option ℚ) : optLe a b ∨ optLe b a := by
  cases a with
  | none => exact Or.inl trivial
  | some x =>
    cases b with
    | none => exact Or.inr trivial
    | some y => exact le_total x y

theorem optLt_none_right {a : Option ℚ} (h : optLt a none) : False := by
  cases a <;> exact h

instance : IsTrans Row rowOrder := by
  constructor
  intro r1 r2 r3 h12 h23
  rcases h12 with h | ⟨e12, h12⟩
  · rcases h23 with h' | ⟨e23, _⟩
    · exact Or.inl (optLt_trans h' h)
    · exact Or.inl (e23 ▸ h)
  · rcases h23 with h' | ⟨e23, h23⟩
    · exact Or.inl (by rw [e12]; exact h')
    · refine Or.inr ⟨e12.trans e23, ?_⟩
      rcases h12 with hn | ⟨en, hp⟩
      · rcases h23 with hn' | ⟨en', _⟩
        · exact Or.inl (lt_trans hn hn')
        · exact Or.inl (en' ▸ hn)
      · rcases h23 with hn' | ⟨en', hp'⟩
        · exact Or.inl (by rw [en]; exact hn')
        · exact Or.inr ⟨en.trans en', optLe_trans hp' hp⟩

instance : IsTotal Row rowOrder := by
  constructor
  intro r1 r2
  rcases optLt_trichotomy r1.most_overdue r2.most_overdue with h | h | h
  · exact Or.inr (Or.inl h)
  · rcases lt_trichotomy r1.name.data r2.name.data with hn | hn | hn
    · exact Or.inl (Or.inr ⟨h, Or.inl hn⟩)
    · have hname : r1.name = r2.name := by
        cases r1name : r1.name
        cases r2name : r2.name
        simp_all
      rcases optLe_total r2.percent_overdue r1.percent_overdue with hp | hp
      · exact Or.inl (Or.inr ⟨h, Or.inr ⟨hname, hp⟩⟩)
      · exact Or.inr (Or.inr ⟨h.symm, Or.inr ⟨hname.symm, hp⟩⟩)
    · exact Or.inr (Or.inr ⟨h.symm, Or.inl hn⟩)
  · exact Or.inl (Or.inl h)

theorem sorted_listRows (db : DB) (now : ℚ) :
    List.Sorted rowOrder (listRows db now) :=
  List.sorted_insertionSort rowOrder _

theorem listRows_perm (db : DB) (now : ℚ) :
    List.Perm (listRows db now) (withMostOverdue (innerRows db now)) :=
  List.perm_insertionSort rowOrder _

/-! ### Structural lemmas about the report rows -/

theorem mkRow_id (db : DB) (now : ℚ) (f : Friend) (g : Goal) :
    (mkRow db now f g).id = f.id := rfl

theorem mkRow_name (db : DB) (now : ℚ) (f : Friend) (g : Goal) :
    (mkRow db now f g).name = f.name := rfl

theorem mkRow_medium (db : DB) (now : ℚ) (f : Friend) (g : Goal) :
    (mkRow db now f g).medium = g.medium := rfl

theorem mkRow_frequency (db : DB) (now : ℚ) (f : Friend) (g : Goal) :
    (mkRow db now f g).frequency = g.frequency := rfl

theorem mkRow_lvc (db : DB) (now : ℚ) (f : Friend) (g : Goal) :
    (mkRow db now f g).last_valid_contact =
      ((qualifyingContacts db f.id g.medium).map (fun c => c.date)).max? := rfl

theorem mkRow_days (db : DB) (now : ℚ) (f : Friend) (g : Goal) :
    (mkRow db now f g).days_since =
      (mkRow db now f g).last_valid_contact.map (fun d : ℤ => ratTrunc (now - (d : ℚ))) := rfl

theorem mkRow_percent (db : DB) (now : ℚ) (f : Friend) (g : Goal) :
    (mkRow db now f g).percent_overdue =
      (mkRow db now f g).days_since.map (fun k : ℤ => 100 * (k : ℚ) / (g.frequency : ℚ)) := rfl

theorem mem_innerRows {db : DB} {now : ℚ} {r : Row} :
    r ∈ innerRows db now ↔
      ∃ f ∈ db.friends, ∃ g ∈ db.goals, g.friend_id = f.id ∧ r = mkRow db now f g := by
  simp only [innerRows, List.mem_flatMap, List.mem_map, List.mem_filter, beq_iff_eq]
  constructor
  · rintro ⟨f, hf, g, ⟨hg, hid⟩, heq⟩
    exact ⟨f, hf, g, hg, hid, heq.symm⟩
  · rintro ⟨f, hf, g, hg, hid, heq⟩
    exact ⟨f, hf, g, ⟨hg, hid⟩, heq.symm⟩

theorem withMostOverdue_eq_map (rs : List Row) :
    withMostOverdue rs = rs.map (windowUpdate rs) := rfl

theorem mem_withMostOverdue {rs : List Row} {r : Row} :
    r ∈ withMostOverdue rs ↔ ∃ r0 ∈ rs, r = windowUpdate rs r0 := by
  simp only [withMostOverdue_eq_map, List.mem_map, eq_comm]

theorem mem_listRows {db : DB} {now : ℚ} {r : Row} :
    r ∈ listRows db now ↔
      ∃ r0 ∈ innerRows db now, r = windowUpdate (innerRows db now) r0 := by
  rw [(listRows_perm db now).mem_iff]
  exact mem_withMostOverdue

/-- Every row of the report carries the `name`/`id` of a friend and the
`medium`/`frequency` of one of that friend's goals. -/
theorem mem_listRows_struct {db : DB} {now : ℚ} {r : Row}
    (h : r ∈ listRows db now) :
    ∃ f ∈ db.friends, ∃ g ∈ db.goals, g.friend_id = f.id ∧
      r.id = f.id ∧ r.name = f.name ∧ r.medium = g.medium ∧ r.frequency = g.frequency ∧
      r.percent_overdue = (mkRow db now f g).percent_overdue ∧
      r.last_valid_contact = (mkRow db now f g).last_valid_contact := by
  rcases mem_listRows.mp h with ⟨r0, hr0, heq⟩
  rcases mem_innerRows.mp hr0 with ⟨f, hf, g, hg, hid, hrow⟩
  subst hrow
  exact ⟨f, hf, g, hg, hid, by rw [heq]; rfl, by rw [heq]; rfl, by rw [heq]; rfl,
    by rw [heq]; rfl, by rw [heq]; rfl, by rw [heq]; rfl⟩

/-! ### The SQL `MAX` aggregate is permutation invariant -/

theorem omax_left_comm (a b c : Option ℚ) : omax a (omax b c) = omax b (omax a c) := by
  cases a <;> cases b <;> cases c <;> simp [omax, max_left_comm, max_comm]

theorem aggMax_cons (a : Option ℚ) (l : List (Option ℚ)) :
    aggMax (a :: l) = omax a (aggMax l) := rfl

theorem aggMax_perm {l1 l2 : List (Option ℚ)} (p : List.Perm l1 l2) :
    aggMax l1 = aggMax l2 := by
  induction p with
  | nil => rfl
  | cons x _ ih => rw [aggMax_cons, aggMax_cons, ih]
  | swap x y l => rw [aggMax_cons, aggMax_cons, aggMax_cons, aggMax_cons, omax_left_comm]
  | trans _ _ ih1 ih2 => exact ih1.trans ih2

/-! ### The join partitions the goals table -/

theorem flatMap_congr {α β : Type} {l : List α} {f g : α → List β}
    (h : ∀ a ∈ l, f a = g a) : l.flatMap f = l.flatMap g := by
  induction l with
  | nil => rfl
  | cons a l ih =>
    rw [List.flatMap_cons, List.flatMap_cons, h a (List.mem_cons_self a l),
      ih (fun x hx => h x (List.mem_cons_of_mem a hx))]

theorem wf_friend_eq_of_name {db : DB} (hWF : WF db) {f1 f2 : Friend}
    (h1 : f1 ∈ db.friends) (h2 : f2 ∈ db.friends) (h : f1.name = f2.name) : f1 = f2 :=
  List.inj_on_of_nodup_map hWF.2.1 h1 h2 h

theorem wf_friend_eq_of_id {db : DB} (hWF : WF db) {f1 f2 : Friend}
    (h1 : f1 ∈ db.friends) (h2 : f2 ∈ db.friends) (h : f1.id = f2.id) : f1 = f2 :=
  List.inj_on_of_nodup_map hWF.1 h1 h2 h

theorem join_keys_perm :
    ∀ (fs : List Friend) (gs : List Goal),
      ((fs.map (fun f => f.id)).Nodup) →
      (∀ g ∈ gs, g.friend_id ∈ fs.map (fun f => f.id)) →
      List.Perm
        (fs.flatMap (fun f =>
          (gs.filter (fun g => g.friend_id == f.id)).map (fun g => (f.id, g.medium))))
        (gs.map (fun g => (g.friend_id, g.medium))) := by
  intro fs
  induction fs with
  | nil =>
    intro gs _ hsub
    have hgs : gs = [] := by
      cases gs with
      | nil => rfl
      | cons g t => simpa using hsub g (List.mem_cons_self g t)
    subst hgs
    exact List.Perm.refl _
  | cons f fs ih =>
    intro gs hnd hsub
    rw [List.map_cons, List.nodup_cons] at hnd
    rw [List.flatMap_cons]
    have htail :
        fs.flatMap (fun f' =>
            (gs.filter (fun g => g.friend_id == f'.id)).map (fun g => (f'.id, g.medium)))
          = fs.flatMap (fun f' =>
            ((gs.filter (fun g => !(g.friend_id == f.id))).filter
              (fun g => g.friend_id == f'.id)).map (fun g => (f'.id, g.medium))) := by
      apply flatMap_congr
      intro f' hf'
      rw [List.filter_filter]
      congr 1
      apply List.filter_congr
      intro g _
      cases hq : (g.friend_id == f'.id) with
      | false => simp
      | true =>
        have hgid : g.friend_id = f'.id := by simpa using hq
        have hne : f'.id ≠ f.id := by
          intro hcontra
          exact hnd.1 (by rw [← hcontra]; exact List.mem_map_of_mem _ hf')
        simp [hgid, hne]
    have hsub' : ∀ g ∈ gs.filter (fun g => !(g.friend_id == f.id)),
        g.friend_id ∈ fs.map (fun f => f.id) := by
      intro g hg
      rcases List.mem_filter.mp hg with ⟨hgs, hB⟩
      have hmem := hsub g hgs
      rw [List.map_cons] at hmem
      rcases List.mem_cons.mp hmem with h | h
      · exact absurd (by simpa using hB) (by simp [h])
      · exact h
    have hperm := ih (gs.filter (fun g => !(g.friend_id == f.id))) hnd.2 hsub'
    rw [htail]
    have hhead :
        (gs.filter (fun g => g.friend_id == f.id)).map (fun g => (f.id, g.medium))
          = (gs.filter (fun g => g.friend_id == f.id)).map (fun g => (g.friend_id, g.medium)) := by
      apply List.map_congr_left
      intro g hg
      have : g.friend_id = f.id := by simpa using (List.mem_filter.mp hg).2
      rw [this]
    rw [hhead]
    refine (List.Perm.append_left _ hperm).trans ?_
    rw [← List.map_append]
    exact (List.filter_append_perm _ gs).map _

theorem withMostOverdue_keys (rs : List Row) :
    (withMostOverdue rs).map (fun r => (r.id, r.medium)) =
      rs.map (fun r => (r.id, r.medium)) := by
  rw [withMostOverdue_eq_map, List.map_map]
  exact List.map_congr_left (fun r _ => rfl)

theorem innerRows_keys (db : DB) (now : ℚ) :
    (innerRows db now).map (fun r => (r.id, r.medium)) =
      db.friends.flatMap (fun f =>
        (db.goals.filter (fun g => g.friend_id == f.id)).map (fun g => (f.id, g.medium))) := by
  rw [innerRows, List.map_flatMap]
  exact flatMap_congr (fun f _ => by rw [List.map_map]; exact List.map_congr_left (fun g _ => rfl))

theorem listRows_keys_perm (db : DB) (now : ℚ) (hWF : WF db) :
    List.Perm ((listRows db now).map (fun r => (r.id, r.medium)))
      (db.goals.map (fun g => (g.friend_id, g.medium))) := by
  have h1 := (listRows_perm db now).map (fun r => (r.id, r.medium))
  rw [withMostOverdue_keys, innerRows_keys] at h1
  exact h1.trans (join_keys_perm db.friends db.goals hWF.1 hWF.2.2.2)

/-! ### C1: the medium hierarchy governs which contacts qualify -/

instance : (gm cm : Medium) → Decidable (specRichAtLeast gm cm) := fun gm cm => by
  unfold specRichAtLeast
  infer_instance

theorem specRichAtLeast_iff (gm cm : Medium) :
    specRichAtLeast gm cm ↔ medium_hierarchy gm ≤ medium_hierarchy cm := by
  cases gm <;> cases cm <;> decide

theorem rank_le_meet (m : Medium) : medium_hierarchy m ≤ medium_hierarchy Medium.meet := by
  cases m <;> decide

theorem rank_le_text_iff (m : Medium) :
    medium_hierarchy m ≤ medium_hierarchy Medium.text ↔ m = Medium.text := by
  cases m <;> decide

theorem mem_qualifyingContacts {db : DB} {fid : Nat} {gm : Medium} {c : Contact} :
    c ∈ qualifyingContacts db fid gm ↔
      c ∈ db.contacts ∧ c.friend_id = fid ∧
        medium_hierarchy gm ≤ medium_hierarchy c.medium := by
  simp [qualifyingContacts, List.mem_filter, Bool.and_eq_true, beq_iff_eq,
    decide_eq_true_eq, and_assoc]

/-- C1.  A contact event counts toward a goal — i.e. it is among the
contacts over which the `list` query computes the goal's last valid
contact — exactly when its medium is at least as rich as the goal's medium
in the order `text < talk < call < meet`; in particular a `meet` contact
qualifies for goals of every medium and a `text` contact qualifies only for
`text` goals. -/
theorem medium_hierarchy_governs_eligibility (db : DB) (now : ℚ) (f : Friend)
    (g : Goal) (c : Contact) :
    (c ∈ qualifyingContacts db f.id g.medium ↔
      c ∈ db.contacts ∧ c.friend_id = f.id ∧ specRichAtLeast g.medium c.medium) ∧
    ((mkRow db now f g).last_valid_contact =
      ((qualifyingContacts db f.id g.medium).map (fun c2 => c2.date)).max?) ∧
    (c.medium = Medium.meet → c ∈ db.contacts → c.friend_id = f.id →
      c ∈ qualifyingContacts db f.id g.medium) ∧
    (c.medium = Medium.text →
      (c ∈ qualifyingContacts db f.id g.medium ↔
        c ∈ db.contacts ∧ c.friend_id = f.id ∧ g.medium = Medium.text)) := by
  refine ⟨?_, mkRow_lvc db now f g, ?_, ?_⟩
  · rw [mem_qualifyingContacts, specRichAtLeast_iff]
  · intro hm hc hf
    rw [mem_qualifyingContacts]
    exact ⟨hc, hf, by rw [hm]; exact rank_le_meet g.medium⟩
  · intro hm
    rw [mem_qualifyingContacts, hm]
    exact and_congr_right fun _ => and_congr_right fun _ => rank_le_text_iff g.medium

/-- Evaluation of `medium_hierarchy_governs_eligibility` at the fixture: a
`meet` contact qualifies for a `call` goal. -/
theorem medium_hierarchy_governs_eligibility_witness :
    (⟨1, 99, Medium.meet⟩ : Contact) ∈ qualifyingContacts dbW 1 Medium.call :=
  (medium_hierarchy_governs_eligibility dbW 0 ⟨1, "Alice"⟩ ⟨1, Medium.call, 7⟩
    ⟨1, 99, Medium.meet⟩).2.2.1 rfl (by decide) rfl

/-! ### C5: `days_since` and `percent_overdue` -/

theorem ratTrunc_intCast_add_fract (k : ℤ) (fr : ℚ) (hk : 0 ≤ k) (h0 : 0 ≤ fr)
    (h1 : fr < 1) : ratTrunc ((k : ℚ) + fr) = k := by
  have hq : 0 ≤ (k : ℚ) + fr := add_nonneg (by exact_mod_cast hk) h0
  rw [ratTrunc, if_pos hq, add_comm, Int.floor_add_int,
    Int.floor_eq_zero_iff.mpr ⟨h0, h1⟩, zero_add]

/-- C5.  Write `now = n + fr` with `n` the whole local days and
`0 ≤ fr < 1` the elapsed fraction of the current day.  For a (friend, goal)
pair whose last valid contact exists and is not in the future, `days_since`
is exactly the integer number of days `n - d` between the most recent
qualifying contact's date `d` and now, and the displayed percent is
`100 * days_since / frequency` truncated to an integer. -/
theorem days_since_and_percent_overdue (db : DB) (f : Friend) (g : Goal)
    (n d : ℤ) (fr : ℚ) (h0 : 0 ≤ fr) (h1 : fr < 1)
    (hlvc : (mkRow db ((n : ℚ) + fr) f g).last_valid_contact = some d)
    (hpast : d ≤ n) :
    (mkRow db ((n : ℚ) + fr) f g).last_valid_contact =
      ((qualifyingContacts db f.id g.medium).map (fun c => c.date)).max? ∧
    (mkRow db ((n : ℚ) + fr) f g).days_since = some (n - d) ∧
    (mkRow db ((n : ℚ) + fr) f g).percent_overdue =
      some (100 * ((n - d : ℤ) : ℚ) / (g.frequency : ℚ)) ∧
    percentInt (mkRow db ((n : ℚ) + fr) f g) =
      ratTrunc (100 * ((n - d : ℤ) : ℚ) / (g.frequency : ℚ)) := by
  have hds : (mkRow db ((n : ℚ) + fr) f g).days_since = some (n - d) := by
    rw [mkRow_days, hlvc, Option.map_some']
    have harg : (n : ℚ) + fr - (d : ℚ) = ((n - d : ℤ) : ℚ) + fr := by
      push_cast
      ring
    rw [harg, ratTrunc_intCast_add_fract (n - d) fr (sub_nonneg.mpr hpast) h0 h1]
  have hperc : (mkRow db ((n : ℚ) + fr) f g).percent_overdue =
      some (100 * ((n - d : ℤ) : ℚ) / (g.frequency : ℚ)) := by
    rw [mkRow_percent, hds, Option.map_some']
  refine ⟨mkRow_lvc db _ f g, hds, hperc, ?_⟩
  simp [percentInt, hperc]

/-- Evaluation of `days_since_and_percent_overdue` at the fixture: Alice
was met on day 99, `now = 100`, so one day has passed and the display
shows `trunc (100 * 1 / 2) = 50` percent. -/
theorem days_since_and_percent_overdue_witness :
    (mkRow dbW (((100 : ℤ) : ℚ) + 0) ⟨1, "Alice"⟩ ⟨1, Medium.meet, 2⟩).days_since =
      some (100 - 99) ∧
    percentInt (mkRow dbW (((100 : ℤ) : ℚ) + 0) ⟨1, "Alice"⟩ ⟨1, Medium.meet, 2⟩) =
      ratTrunc (100 * (((100 - 99 : ℤ) : ℚ)) / ((2 : ℤ) : ℚ)) :=
  ⟨(days_since_and_percent_overdue dbW ⟨1, "Alice"⟩ ⟨1, Medium.meet, 2⟩ 100 99 0
      le_rfl (by norm_num) rfl (by norm_num)).2.1,
   (days_since_and_percent_overdue dbW ⟨1, "Alice"⟩ ⟨1, Medium.meet, 2⟩ 100 99 0
      le_rfl (by norm_num) rfl (by norm_num)).2.2.2⟩

/-! ### C3: `contact` on an unknown name -/

/-- C3 counterexample.  Running `contact` for the unknown name "Zed"
does not produce a friendly friend-not-found message and a normal exit: it
raises the unhandled `NOT NULL` constraint failure (`sqlite3.IntegrityError`,
a fatal error), and the transaction is rolled back.  The claim's
"reported to the user as friend-not-found ... non-fatal" is therefore false
at this input (only "no contact event is inserted" survives). -/
theorem contact_unknown_name_cex :
    contact dbW "Zed" Medium.meet 5 = Except.error DBError.notNullViolation ∧
    step dbW (Cmd.contact "Zed" Medium.meet 5) = dbW :=
  ⟨rfl, rfl⟩

/-- C3 amended.  For every name not in the friends table, `contact` inserts
no contact event, but instead of a friend-not-found message it dies with the
unhandled `NOT NULL` storage-constraint error (the subquery for the friend
id yields `NULL`); the transaction is rolled back. -/
theorem contact_unknown_name_fatal (db : DB) (name : String) (m : Medium) (d : Int)
    (h : ∀ f ∈ db.friends, f.name ≠ name) :
    contact db name m d = Except.error DBError.notNullViolation ∧
    step db (Cmd.contact name m d) = db := by
  have hfind : db.friends.find? (fun f => f.name == name) = none := by
    rw [List.find?_eq_none]
    intro f hf
    simp only [beq_iff_eq]
    exact h f hf
  constructor
  · rw [contact, hfind]
  · rw [step, contact, hfind]

/-- Evaluation of `contact_unknown_name_fatal` at the fixture. -/
theorem contact_unknown_name_fatal_witness :
    contact dbW "Nobody" Medium.call 7 = Except.error DBError.notNullViolation ∧
    step dbW (Cmd.contact "Nobody" Medium.call 7) = dbW :=
  contact_unknown_name_fatal dbW "Nobody" Medium.call 7 (by decide)

/-! ### C6: `rename` to a colliding name -/

/-- C6 counterexample.  Renaming Alice to "Bob" while Bob exists is not a
no-op / silent success: the `UNIQUE` constraint on `friends.name` fires and
the command dies with an unhandled `sqlite3.IntegrityError` (a fatal
error); the transaction is rolled back. -/
theorem rename_collision_cex :
    rename dbW "Alice" "Bob" = Except.error DBError.uniqueViolation ∧
    step dbW (Cmd.rename "Alice" "Bob") = dbW :=
  ⟨rfl, rfl⟩

/-- C6 amended.  Renaming an existing friend to a name that already belongs
to another friend is not a silent success: the storage layer's uniqueness
constraint makes the `UPDATE` fail with an unhandled fatal error, and the
store is left unchanged (the transaction rolls back). -/
theorem rename_collision_fatal (db : DB) (old new : String)
    (hex : db.friends.any (fun f => f.name == old) = true)
    (hne : new ≠ old)
    (hcol : ∃ f ∈ db.friends, f.name = new) :
    rename db old new = Except.error DBError.uniqueViolation ∧
    step db (Cmd.rename old new) = db := by
  have hs : (db.friends.find? (fun f => f.name == old)).isSome :=
    List.find?_isSome.mpr (by simpa [List.any_eq_true] using hex)
  obtain ⟨fr, hfr⟩ := Option.isSome_iff_exists.mp hs
  have hcond : (new != old && db.friends.any (fun f => f.name == new)) = true := by
    rw [Bool.and_eq_true]
    refine ⟨by simpa using hne, ?_⟩
    rw [List.any_eq_true]
    rcases hcol with ⟨f, hf, he⟩
    exact ⟨f, hf, by simp [he]⟩
  constructor
  · rw [rename, hfr]
    simp [hcond]
  · rw [step, rename, hfr]
    simp [hcond]

/-- Evaluation of `rename_collision_fatal` at the fixture. -/
theorem rename_collision_fatal_witness :
    rename dbW "Carl" "Alice" = Except.error DBError.uniqueViolation ∧
    step dbW (Cmd.rename "Carl" "Alice") = dbW :=
  rename_collision_fatal dbW "Carl" "Alice" (by decide) (by decide)
    ⟨⟨1, "Alice"⟩, by decide, rfl⟩

/-! ### C9: a collision-free `rename` only changes the name -/

/-- C9.  For an existing friend and a new name that does not collide with
another friend, `rename` succeeds and changes only that friend's `name`
column: the contacts table and the goals table are untouched, the surrogate
ids of all friends are unchanged, and every other friend row is exactly as
before. -/
theorem rename_preserves_associations (db : DB) (name new_name : String)
    (hex : db.friends.any (fun f => f.name == name) = true)
    (hnc : new_name = name ∨ ∀ f ∈ db.friends, f.name ≠ new_name) :
    ∃ db', rename db name new_name = Except.ok db' ∧
      db'.contacts = db.contacts ∧
      db'.goals = db.goals ∧
      db'.friends = db.friends.map (fun f =>
        if f.name == name then { f with name := new_name } else f) ∧
      db'.friends.map (fun f => f.id) = db.friends.map (fun f => f.id) := by
  have hs : (db.friends.find? (fun f => f.name == name)).isSome :=
    List.find?_isSome.mpr (by simpa [List.any_eq_true] using hex)
  obtain ⟨fr, hfr⟩ := Option.isSome_iff_exists.mp hs
  have hcond : (new_name != name && db.friends.any (fun f => f.name == new_name)) = false := by
    rcases hnc with h | h
    · simp [h]
    · have hany : db.friends.any (fun f => f.name == new_name) = false := by
        rw [List.any_eq_false]
        intro f hf
        simp only [beq_iff_eq]
        exact h f hf
      simp [hany]
  refine ⟨{ db with friends := db.friends.map (fun f =>
      if f.name == name then { f with name := new_name } else f) }, ?_, rfl, rfl, rfl, ?_⟩
  · rw [rename, hfr]
    simp [hcond]
  · rw [List.map_map]
    apply List.map_congr_left
    intro f _
    by_cases hc : f.name = name <;> simp [hc]

/-- Evaluation of `rename_preserves_associations` at the fixture: renaming
Alice to the fresh name "Dana". -/
theorem rename_preserves_associations_witness :
    ∃ db', rename dbW "Alice" "Dana" = Except.ok db' ∧
      db'.contacts = dbW.contacts ∧
      db'.goals = dbW.goals ∧
      db'.friends = dbW.friends.map (fun f =>
        if f.name == "Alice" then { f with name := "Dana" } else f) ∧
      db'.friends.map (fun f => f.id) = dbW.friends.map (fun f => f.id) :=
  rename_preserves_associations dbW "Alice" "Dana" (by decide)
    (Or.inr (by decide))

/-! ### C7: `goal` with frequency 0 removes the goal row -/

/-- C7.  For an existing friend, `goal <name> <medium> 0` deletes the goal
row of that (friend, medium) pair: afterwards no goals-table row and no
`list` report row carries that pair (whether the pair is identified by the
friend's surrogate id or, given the schema invariants, by the friend's
name). -/
theorem goal_zero_removes (db : DB) (name : String) (m : Medium) (fr : Friend)
    (now : ℚ) (hWF : WF db)
    (hfind : db.friends.find? (fun f => f.name == name) = some fr) :
    (∀ g ∈ (goalCmd db name m 0).goals, g.friend_id = fr.id → g.medium ≠ m) ∧
    (∀ r ∈ listRows (goalCmd db name m 0) now, r.id = fr.id → r.medium ≠ m) ∧
    (∀ r ∈ listRows (goalCmd db name m 0) now, r.name = name → r.medium ≠ m) := by
  have hdb' : goalCmd db name m 0 =
      { db with goals :=
          db.goals.filter (fun g => !(g.friend_id == fr.id && g.medium == m)) } := by
    rw [goalCmd, hfind]
    simp
  have hgoals : ∀ g ∈ (goalCmd db name m 0).goals, g.friend_id = fr.id → g.medium ≠ m := by
    intro g hg hid hm
    rw [hdb'] at hg
    rcases List.mem_filter.mp hg with ⟨_, hB⟩
    simp [hid, hm] at hB
  have hrows : ∀ r ∈ listRows (goalCmd db name m 0) now, r.id = fr.id → r.medium ≠ m := by
    intro r hr hid hm
    rcases mem_listRows_struct hr with ⟨f', _, g, hg, hgid, hrid, _, hrm, _⟩
    exact hgoals g hg (by rw [hgid, ← hrid, hid]) (by rw [← hrm, hm])
  refine ⟨hgoals, hrows, ?_⟩
  intro r hr hname hm
  rcases mem_listRows_struct hr with ⟨f', hf', g, hg, hgid, hrid, hrname, hrm, _⟩
  have hfr_mem : fr ∈ db.friends := List.mem_of_find?_eq_some hfind
  have hfr_name : fr.name = name := by simpa using List.find?_some hfind
  have hf'_mem : f' ∈ db.friends := by
    have : (goalCmd db name m 0).friends = db.friends := by rw [hdb']
    rwa [this] at hf'
  have heq : f' = fr := wf_friend_eq_of_name hWF hf'_mem hfr_mem
    (by rw [← hrname, hname, hfr_name])
  exact hrows r hr (by rw [hrid, heq]) hm

/-- Evaluation of `goal_zero_removes` at the fixture: removing Alice's meet
goal. -/
theorem goal_zero_removes_witness :
    (∀ g ∈ (goalCmd dbW "Alice" Medium.meet 0).goals,
      g.friend_id = (⟨1, "Alice"⟩ : Friend).id → g.medium ≠ Medium.meet) ∧
    (∀ r ∈ listRows (goalCmd dbW "Alice" Medium.meet 0) 100,
      r.id = (⟨1, "Alice"⟩ : Friend).id → r.medium ≠ Medium.meet) ∧
    (∀ r ∈ listRows (goalCmd dbW "Alice" Medium.meet 0) 100,
      r.name = "Alice" → r.medium ≠ Medium.meet) :=
  goal_zero_removes dbW "Alice" Medium.meet ⟨1, "Alice"⟩ 100 (by decide) rfl

/-! ### C10: every stored goal has a nonzero frequency -/

theorem add_goals {db : DB} {n : String} {db' : DB} (h : add db n = Except.ok db') :
    db'.goals = db.goals := by
  rw [add] at h
  split at h
  · exact absurd h (by simp)
  · injection h with h
    rw [← h]

theorem rename_goals {db : DB} {a b : String} {db' : DB}
    (h : rename db a b = Except.ok db') : db'.goals = db.goals := by
  rw [rename] at h
  split at h
  · injection h with h
    rw [← h]
  · split at h
    · exact absurd h (by simp)
    · injection h with h
      rw [← h]

theorem contact_goals {db : DB} {n : String} {m : Medium} {d : Int} {db' : DB}
    (h : contact db n m d = Except.ok db') : db'.goals = db.goals := by
  rw [contact] at h
  split at h
  · exact absurd h (by simp)
  · injection h with h
    rw [← h]

theorem goalCmd_goals_nonzero (db : DB) (h : ∀ g ∈ db.goals, g.frequency ≠ 0)
    (n : String) (m : Medium) (fq : Int) :
    ∀ g ∈ (goalCmd db n m fq).goals, g.frequency ≠ 0 := by
  rw [goalCmd]
  split
  · exact h
  · rename_i friend _
    split
    · intro g hg
      exact h g (List.mem_filter.mp hg).1
    · rename_i hfq
      split
      · intro g hg
        rcases List.mem_map.mp hg with ⟨g0, hg0, heq⟩
        by_cases hc : (g0.friend_id == friend.id && g0.medium == m) = true
        · rw [if_pos hc] at heq
          rw [← heq]
          exact hfq
        · rw [if_neg hc] at heq
          rw [← heq]
          exact h g0 hg0
      · intro g hg
        rcases List.mem_append.mp hg with hg | hg
        · exact h g hg
        · rw [List.mem_singleton.mp hg]
          exact hfq

theorem step_goals_nonzero (db : DB) (c : Cmd) (h : ∀ g ∈ db.goals, g.frequency ≠ 0) :
    ∀ g ∈ (step db c).goals, g.frequency ≠ 0 := by
  cases c with
  | add n =>
    rw [step]
    cases hadd : add db n with
    | ok db' => rw [add_goals hadd]; exact h
    | error e => exact h
  | goal n m fq => exact goalCmd_goals_nonzero db h n m fq
  | rename a b =>
    rw [step]
    cases hr : rename db a b with
    | ok db' => rw [rename_goals hr]; exact h
    | error e => exact h
  | contact n m d =>
    rw [step]
    cases hc : contact db n m d with
    | ok db' => rw [contact_goals hc]; exact h
    | error e => exact h

theorem run_goals_nonzero (cmds : List Cmd) :
    ∀ g ∈ (run cmds).goals, g.frequency ≠ 0 := by
  suffices hgen : ∀ (cs : List Cmd) (db : DB), (∀ g ∈ db.goals, g.frequency ≠ 0) →
      ∀ g ∈ (cs.foldl step db).goals, g.frequency ≠ 0 by
    exact hgen cmds emptyDB (by intro g hg; cases hg)
  intro cs
  induction cs with
  | nil => exact fun db h => h
  | cons c cs ih =>
    intro db h
    rw [List.foldl_cons]
    exact ih (step db c) (step_goals_nonzero db c h)

/-- C10.  Starting from an empty store, after any sequence of commands every
row of the goals table has a nonzero frequency: `goal` deletes the row when
given frequency 0 and otherwise stores the given (possibly negative)
nonzero frequency unchanged.  Consequently every row of the `list` report
has a nonzero `frequency`, so the division `... / g.frequency` in
`percent_overdue` never divides by zero. -/
theorem goal_frequency_never_zero :
    (∀ (cmds : List Cmd), ∀ g ∈ (run cmds).goals, g.frequency ≠ 0) ∧
    (∀ (cmds : List Cmd) (now : ℚ), ∀ r ∈ listRows (run cmds) now, r.frequency ≠ 0) ∧
    (∀ (db : DB) (name : String) (m : Medium) (fq : Int) (fr : Friend),
      db.friends.find? (fun f => f.name == name) = some fr → fq ≠ 0 →
      (⟨fr.id, m, fq⟩ : Goal) ∈ (goalCmd db name m fq).goals) := by
  refine ⟨run_goals_nonzero, ?_, ?_⟩
  · intro cmds now r hr
    rcases mem_listRows_struct hr with ⟨f, _, g, hg, _, _, _, _, hfreq, _⟩
    rw [hfreq]
    exact run_goals_nonzero cmds g hg
  · intro db name m fq fr hfind hfq
    rw [goalCmd, hfind]
    simp only [if_neg hfq]
    split
    · rename_i hany
      rcases List.any_eq_true.mp hany with ⟨g0, hg0, hkey⟩
      rw [Bool.and_eq_true, beq_iff_eq, beq_iff_eq] at hkey
      refine List.mem_map.mpr ⟨g0, hg0, ?_⟩
      rw [if_pos (by simp [hkey.1, hkey.2]), hkey.1, hkey.2]
    · exact List.mem_append_right _ (List.mem_singleton.mpr rfl)

/-- Evaluation of `goal_frequency_never_zero` at a concrete command
sequence: a negative frequency (-3) is accepted, stored, and nonzero. -/
theorem goal_frequency_never_zero_witness :
    (⟨1, Medium.meet, -3⟩ : Goal) ∈
      (goalCmd (run [Cmd.add "A"]) "A" Medium.meet (-3)).goals ∧
    (⟨1, Medium.meet, -3⟩ : Goal).frequency ≠ 0 :=
  ⟨goal_frequency_never_zero.2.2 (run [Cmd.add "A"]) "A" Medium.meet (-3) ⟨1, "A"⟩
      rfl (by decide),
   goal_frequency_never_zero.1 [Cmd.add "A", Cmd.goal "A" Medium.meet (-3)]
      ⟨1, Medium.meet, -3⟩ (by decide)⟩

/-! ### C4: ordering of the report -/

theorem listRows_most_overdue (db : DB) (now : ℚ) (hWF : WF db) :
    ∀ r ∈ listRows db now,
      r.most_overdue = aggMax (((listRows db now).filter
        (fun r2 => r2.name == r.name)).map (fun r2 => r2.percent_overdue)) := by
  intro r hr
  rcases mem_listRows.mp hr with ⟨r0, hr0, heq⟩
  have hmo : r.most_overdue = aggMax (((innerRows db now).filter
      (fun r2 => r2.id == r0.id)).map (fun r2 => r2.percent_overdue)) := by
    rw [heq]; rfl
  have hperm1 : List.Perm
      (((listRows db now).filter (fun r2 => r2.name == r.name)).map
        (fun r2 => r2.percent_overdue))
      (((withMostOverdue (innerRows db now)).filter (fun r2 => r2.name == r.name)).map
        (fun r2 => r2.percent_overdue)) :=
    ((listRows_perm db now).filter _).map _
  have hfm : (withMostOverdue (innerRows db now)).filter (fun r2 => r2.name == r.name)
      = ((innerRows db now).filter (fun r2 => r2.name == r.name)).map
          (windowUpdate (innerRows db now)) := by
    rw [withMostOverdue_eq_map]
    exact List.filter_map (windowUpdate (innerRows db now)) (innerRows db now)
  have hmap : (((innerRows db now).filter (fun r2 => r2.name == r.name)).map
        (windowUpdate (innerRows db now))).map (fun r2 => r2.percent_overdue)
      = ((innerRows db now).filter (fun r2 => r2.name == r.name)).map
          (fun r2 => r2.percent_overdue) := by
    rw [List.map_map]
    exact List.map_congr_left (fun x _ => rfl)
  have hrname : r.name = r0.name := by rw [heq]; rfl
  have hfilter_eq : (innerRows db now).filter (fun r2 => r2.name == r.name)
      = (innerRows db now).filter (fun r2 => r2.id == r0.id) := by
    apply List.filter_congr
    intro x hx
    rcases mem_innerRows.mp hx with ⟨fx, hfx, gx, _, _, hxrow⟩
    rcases mem_innerRows.mp hr0 with ⟨f0, hf0, g0, _, _, h0row⟩
    subst hxrow
    have hn0 : r0.name = f0.name := by rw [h0row]; rfl
    have hi0 : r0.id = f0.id := by rw [h0row]; rfl
    rw [mkRow_name, mkRow_id, hrname, hn0, hi0]
    by_cases h : fx = f0
    · simp [h]
    · have h1 : fx.name ≠ f0.name := fun hc => h (wf_friend_eq_of_name hWF hfx hf0 hc)
      have h2 : fx.id ≠ f0.id := fun hc => h (wf_friend_eq_of_id hWF hfx hf0 hc)
      simp [h1, h2]
  rw [hmo, aggMax_perm hperm1, hfm, hmap, hfilter_eq]

/-- C4.  The rows of the `list` report are sorted by `rowOrder`, which reads
exactly as the claim does: a row precedes (or ties) another when its
friend's `most_overdue` is strictly greater (`NULL` counting as smallest),
or the two `most_overdue` agree and the name is lexicographically smaller,
or name and `most_overdue` agree (the rows belong to the same friend) and
`percent_overdue` is at least the other's.  Moreover each row's
`most_overdue` is the `MAX` of `percent_overdue` over the rows of the same
friend in the report. -/
theorem list_report_ordering (db : DB) (now : ℚ) (hWF : WF db) :
    List.Sorted rowOrder (listRows db now) ∧
    ∀ r ∈ listRows db now,
      r.most_overdue = aggMax (((listRows db now).filter
        (fun r2 => r2.name == r.name)).map (fun r2 => r2.percent_overdue)) :=
  ⟨sorted_listRows db now, listRows_most_overdue db now hWF⟩

/-- Evaluation of `list_report_ordering` at the fixture. -/
theorem list_report_ordering_witness :
    List.Sorted rowOrder (listRows dbW 100) ∧
    ∀ r ∈ listRows dbW 100,
      r.most_overdue = aggMax (((listRows dbW 100).filter
        (fun r2 => r2.name == r.name)).map (fun r2 => r2.percent_overdue)) :=
  list_report_ordering dbW 100 (by decide)

/-! ### C8: exactly one report row per (friend, goal) pair -/

/-- C8.  Under the schema invariants, the multiset of `(friend id, medium)`
keys of the report rows is exactly the multiset of `(friend_id, medium)`
keys of the goals table (and these keys are pairwise distinct, so there is
exactly one row per stored (friend, goal) pair); a friend with no goals
contributes no row at all, no matter what contact events they have. -/
theorem one_row_per_goal_pair (db : DB) (now : ℚ) (hWF : WF db) :
    List.Perm ((listRows db now).map (fun r => (r.id, r.medium)))
      (db.goals.map (fun g => (g.friend_id, g.medium))) ∧
    ((listRows db now).map (fun r => (r.id, r.medium))).Nodup ∧
    (∀ f ∈ db.friends, (∀ g ∈ db.goals, g.friend_id ≠ f.id) →
      ∀ r ∈ listRows db now, r.name ≠ f.name) := by
  have hkeys := listRows_keys_perm db now hWF
  refine ⟨hkeys, hkeys.nodup_iff.mpr hWF.2.2.1, ?_⟩
  intro f hf hno r hr hname
  rcases mem_listRows_struct hr with ⟨f', hf', g, hg, hgid, _, hnm, _⟩
  have heq : f' = f := wf_friend_eq_of_name hWF hf' hf (by rw [← hnm, hname])
  exact hno g hg (by rw [hgid, heq])

/-- Evaluation of `one_row_per_goal_pair` at the fixture (Carl has a
contact event but no goals, so no report row carries his name). -/
theorem one_row_per_goal_pair_witness :
    List.Perm ((listRows dbW 100).map (fun r => (r.id, r.medium)))
      (dbW.goals.map (fun g => (g.friend_id, g.medium))) ∧
    ((listRows dbW 100).map (fun r => (r.id, r.medium))).Nodup ∧
    (∀ f ∈ dbW.friends, (∀ g ∈ dbW.goals, g.friend_id ≠ f.id) →
      ∀ r ∈ listRows dbW 100, r.name ≠ f.name) :=
  one_row_per_goal_pair dbW 100 (by decide)

/-! ### C2: goals with no qualifying contact -/

/-- C2 counterexample.  At the fixture (`now = 100`) Alice's single goal is
50% overdue while all of Bob's goals lack a qualifying contact.  Were the
claim right — a friend whose goals all lack qualifying contacts is treated
as 100% overdue for sorting — Bob would sort strictly before Alice.  In
the code the SQL `ORDER BY most_overdue DESC` puts `NULL` *below* every
value, so Bob sorts last: the report is `["Alice", "Bob"]`, refuting the
claim's sorting clause. -/
theorem null_overdue_sorts_last_cex :
    (listRows dbW 100).map (fun r => r.name) = ["Alice", "Bob"] ∧
    (listRows dbW 100).map (fun r => r.percent_overdue) = [some 50, none] ∧
    (listRows dbW 100).map (fun r => r.most_overdue) = [some 50, none] ∧
    (listRows dbW 100).map (fun r => r.last_valid_contact) = [some 99, none] := by
  norm_num [listRows, innerRows, withMostOverdue, mkRow, qualifyingContacts, aggMax, omax,
    ratTrunc, medium_hierarchy, rowOrder, optLt, optLe, List.insertionSort,
    List.orderedInsert, dbW, Int.floor_one, Int.floor_intCast]

/-- C2 amended.  For a (friend, goal) pair with no qualifying contact the
report displays the last-contact field as "No contacts logged"; the Python
fallbacks do treat the missing `days_since` as 0 and the missing
`percent_overdue` as 100, but only for display purposes.  Sorting happens
in SQL, where a missing `most_overdue` (`NULL`) orders *below* every
value: a friend whose goals all lack qualifying contacts sorts as least
overdue (last), not maximally overdue — in the report, once a row with
`NULL most_overdue` appears, every later row's `most_overdue` is `NULL`
too. -/
theorem no_qualifying_contact_behavior :
    (∀ (db : DB) (now : ℚ) (f : Friend) (g : Goal),
      qualifyingContacts db f.id g.medium = [] →
        (mkRow db now f g).last_valid_contact = none ∧
        (mkRow db now f g).percent_overdue = none ∧
        lastContactString (mkRow db now f g) = "[red]No contacts logged[/red]" ∧
        daysInt (mkRow db now f g) = 0 ∧
        percentInt (mkRow db now f g) = 100) ∧
    (∀ (db : DB) (now : ℚ), (listRows db now).Pairwise
      (fun r1 r2 => r1.most_overdue = none → r2.most_overdue = none)) := by
  constructor
  · intro db now f g hqual
    have hlvc : (mkRow db now f g).last_valid_contact = none := by
      rw [mkRow_lvc, hqual]
      rfl
    have hds : (mkRow db now f g).days_since = none := by
      rw [mkRow_days, hlvc]
      rfl
    have hperc : (mkRow db now f g).percent_overdue = none := by
      rw [mkRow_percent, hds]
      rfl
    exact ⟨hlvc, hperc, by simp [lastContactString, hlvc], by simp [daysInt, hds],
      by simp [percentInt, hperc]⟩
  · intro db now
    refine (sorted_listRows db now).imp ?_
    intro a b hab hnone
    rcases hab with h | ⟨he, _⟩
    · rw [hnone] at h
      exact absurd h optLt_none_right
    · rw [← he]
      exact hnone

/-- Evaluation of `no_qualifying_contact_behavior` at the fixture: Bob's
goal has no qualifying contact. -/
theorem no_qualifying_contact_behavior_witness :
    lastContactString (mkRow dbW 100 ⟨2, "Bob"⟩ ⟨2, Medium.meet, 7⟩) =
      "[red]No contacts logged[/red]" ∧
    daysInt (mkRow dbW 100 ⟨2, "Bob"⟩ ⟨2, Medium.meet, 7⟩) = 0 ∧
    percentInt (mkRow dbW 100 ⟨2, "Bob"⟩ ⟨2, Medium.meet, 7⟩) = 100 ∧
    (listRows dbW 100).Pairwise
      (fun r1 r2 => r1.most_overdue = none → r2.most_overdue = none) :=
  ⟨(no_qualifying_contact_behavior.1 dbW 100 ⟨2, "Bob"⟩ ⟨2, Medium.meet, 7⟩ rfl).2.2.1,
   (no_qualifying_contact_behavior.1 dbW 100 ⟨2, "Bob"⟩ ⟨2, Medium.meet, 7⟩ rfl).2.2.2.1,
   (no_qualifying_contact_behavior.1 dbW 100 ⟨2, "Bob"⟩ ⟨2, Medium.meet, 7⟩ rfl).2.2.2.2,
   no_qualifying_contact_behavior.2 dbW 100⟩

end FriendConnector
